import Mathlib

/-!
# Verification of the history/replay subsystem of `dance`

Shallow embedding of `src/commands/history.ts`: the commands `repeat`,
`repeat_edit`, `recording_play`, `recording_start` and `recording_stop`,
together with the history-log, cursor and recording collaborators they use.

The collaborators (`Cursor`, `Recorder`, `ActiveRecording`, `Recording`,
regular expressions, the replay protocol of `CommandDescriptor`) are declared
in `src/state/recorder.ts` and the host editor API, which are outside the
embedded source tree; those parts are modelled from the specification and each
such definition says so in its doc comment.  The command bodies themselves are
translated directly from `history.ts`.

The observable behaviour of a command invocation is a trace of replay events
(which descriptor/argument pairs were re-executed, which mode transitions were
triggered, in which order) together with an optional error.  The outcome of
each awaited replay step is supplied by an oracle `outcome : Nat → Option
DanceError` so that failure propagation can be stated.
-/

set_option autoImplicit false

namespace Dance

/-- A command descriptor as required by the core: a stable identifier and the
`shouldBeReplayed` policy flag.  (The `replay` operation is modelled by the
trace semantics below.) -/
structure CommandDescriptor where
  identifier : String
  shouldBeReplayed : Bool
deriving DecidableEq, Repr

/-- An editing mode, as returned by `entry.mode()`; the core only reads its
`name`. -/
structure Mode where
  name : String
deriving DecidableEq, Repr

/-- A history-log entry: the closed set of recordable event kinds used by
`history.ts` (`Entry.ExecuteCommand` and `Entry.ChangeTextEditorMode`).
The captured argument is opaque to the core, hence the type parameter. -/
inductive Entry (α : Type) where
  | executeCommand (descriptor : CommandDescriptor) (argument : α)
  | changeTextEditorMode (mode : Mode)
deriving DecidableEq, Repr

/-- Modelled from the spec: a host regular expression, reduced to what the
core uses — its textual form (for error messages, via `toString`) and its
`test` oracle on identifiers. -/
structure RegExp where
  source : String
  flags : String
  test : String → Bool

/-- Modelled from the spec: the textual form a JavaScript `RegExp` takes when
concatenated into an error message. -/
def RegExp.toString (r : RegExp) : String :=
  "/" ++ r.source ++ "/" ++ r.flags

/-- An observable replay event: re-execution of a command with its captured
argument, or a triggered mode transition (the two effects of
`Cursor.replay`). -/
inductive ReplayEvent (α : Type) where
  | command (descriptor : CommandDescriptor) (argument : α)
  | modeChange (modeName : String)
deriving DecidableEq, Repr

/-- The error taxonomy of `history.ts`: `new Error(message)` and
`ArgumentError.validate(argName, _, message)`, plus the host cancellation
signal. -/
inductive DanceError where
  | error (message : String)
  | argumentError (argName : String) (message : String)
  | cancelled
deriving DecidableEq, Repr

/-- Modelled from the spec: `Cursor.replay` re-executes the entry at the
cursor — for `ExecuteCommand` it invokes the descriptor's `replay` with the
captured argument, for `ChangeTextEditorMode` it triggers the mode
transition. -/
def entryEvent {α : Type} : Entry α → ReplayEvent α
  | Entry.executeCommand d a => ReplayEvent.command d a
  | Entry.changeTextEditorMode m => ReplayEvent.modeChange m.name

/-! ## The backward search of `repeat`

`repeat` (history.ts:60-95) starts a cursor at the log end and loops: if the
current entry `is(Entry.ExecuteCommand)` and its descriptor
`shouldBeReplayed` and the filter matches its identifier, it is selected;
otherwise `cursor.previous()` moves one position back, and failure of
`previous()` (cursor already at position 0) raises the search-exhausted
error.  The cursor (spec §4.1) is a position into the log; `cursorFromEnd`
yields position `log.length` (one past the last entry) and `is` is false out
of bounds. -/

/-- The body of `repeat`'s loop at one cursor position: the selected
descriptor/argument pair if the entry at `pos` is an eligible
`ExecuteCommand`. -/
def repeatMatchAt {α : Type} (log : List (Entry α)) (filter : RegExp) (pos : Nat) :
    Option (CommandDescriptor × α) :=
  match log[pos]? with
  | some (Entry.executeCommand descriptor argument) =>
    if descriptor.shouldBeReplayed && filter.test descriptor.identifier then
      some (descriptor, argument)
    else
      none
  | _ => none

/-- `repeat`'s backward-search loop, cursor at `pos`: try the current entry,
else `previous()` — which fails at position 0, yielding `none` (the
search-exhausted error). -/
def repeatSearchFrom {α : Type} (log : List (Entry α)) (filter : RegExp) :
    Nat → Option (CommandDescriptor × α)
  | 0 => repeatMatchAt log filter 0
  | pos + 1 =>
    match repeatMatchAt log filter (pos + 1) with
    | some r => some r
    | none => repeatSearchFrom log filter pos

/-- The whole backward search of `repeat`: cursor from end (position
`log.length`), then the loop. -/
def repeatSearch {α : Type} (log : List (Entry α)) (filter : RegExp) :
    Option (CommandDescriptor × α) :=
  repeatSearchFrom log filter log.length

/-! ## The repetition loop

All three commands end in `for (let i = 0; i < repetitions; i++) await step`.
Each awaited step either completes, contributing its replay events to the
trace, or throws; the oracle `outcome i` gives the error thrown by iteration
`i`, if any.  (The replay internals are outside the embedded tree; modelled
from the spec, a failing iteration contributes no events and its error
propagates unchanged.) -/

/-- The repetition loop from iteration index `i` with `k` iterations left:
trace of events produced, and the error of the first failing iteration if
one fails. -/
def repeatLoopFrom {α : Type} (outcome : Nat → Option DanceError)
    (body : List (ReplayEvent α)) : Nat → Nat → List (ReplayEvent α) × Option DanceError
  | _, 0 => ([], none)
  | i, k + 1 =>
    match outcome i with
    | some e => ([], some e)
    | none =>
      let rest := repeatLoopFrom outcome body (i + 1) k
      (body ++ rest.1, rest.2)

/-- The repetition loop: `repetitions` iterations starting at index 0, each
successful iteration replaying `body`. -/
def repeatLoop {α : Type} (outcome : Nat → Option DanceError)
    (body : List (ReplayEvent α)) (repetitions : Nat) :
    List (ReplayEvent α) × Option DanceError :=
  repeatLoopFrom outcome body 0 repetitions

/-- `repeat` (history.ts:60-95): backward-search the log for the most recent
eligible command; on failure throw `no previous command matching <filter>`
and replay nothing; on success replay the selected descriptor with its
captured argument `repetitions` times. -/
def «repeat» {α : Type} (log : List (Entry α)) (repetitions : Nat) (filter : RegExp)
    (outcome : Nat → Option DanceError) : List (ReplayEvent α) × Option DanceError :=
  match repeatSearch log filter with
  | none => ([], some (DanceError.error ("no previous command matching " ++ filter.toString)))
  | some (commandDescriptor, commandArgument) =>
    repeatLoop outcome [ReplayEvent.command commandDescriptor commandArgument] repetitions

/-! ## The edit-span search of `repeat_edit`

`repeat_edit` (history.ts:103-137) scans backward from the log end.  On a
`ChangeTextEditorMode` entry whose mode is `normal`, it calls
`cursor.previous()` (ignoring the result) and clones the cursor as
`endCursor`; on a `ChangeTextEditorMode` entry whose mode is `insert` with
`endCursor` already set, it calls `cursor.next()` (ignoring the result) and
clones the cursor as `startCursor`, ending the search.  Otherwise (and after
capturing an end) it moves back with `cursor.previous()`, whose failure at
position 0 raises `cannot find switch to normal or insert mode`.

Cursor operations (spec §4.1, modelled — `recorder.ts` is outside the
embedded tree): `previous()` at position 0 returns false leaving the
position unchanged, otherwise moves to `pos - 1`; `next()` at the log end
(position `log.length`) returns false leaving the position unchanged,
otherwise moves to `pos + 1`. -/

/-- `repeat_edit`'s backward scan, cursor at `pos` with `endPos` the position
of the captured `endCursor`, if any.  Returns the positions
`(startCursor, endCursor)` of the located span, or `none` for the
search-exhausted error. -/
def repeatEditSearchFrom {α : Type} (log : List (Entry α)) (pos : Nat)
    (endPos : Option Nat) : Option (Nat × Nat) :=
  match log[pos]? with
    | some (Entry.changeTextEditorMode m) =>
      if m.name = "normal" then
        -- cursor.previous(); endCursor = cursor.clone(); then the loop's
        -- previous() check from the moved position
        if _h : pos - 1 = 0 then none
        else repeatEditSearchFrom log (pos - 1 - 1) (some (pos - 1))
      else if hm : m.name = "insert" ∧ endPos.isSome then
        -- cursor.next(); startCursor = cursor.clone(); break
        some (if pos < log.length then pos + 1 else pos, endPos.get hm.2)
      else
        if h : pos = 0 then none
        else repeatEditSearchFrom log (pos - 1) endPos
    | _ =>
      if h : pos = 0 then none
      else repeatEditSearchFrom log (pos - 1) endPos
termination_by pos
decreasing_by all_goals omega

/-- The whole edit-span search: cursor from end (position `log.length`), no
end captured yet. -/
def repeatEditSearch {α : Type} (log : List (Entry α)) : Option (Nat × Nat) :=
  repeatEditSearchFrom log log.length none

/-- One pass of `repeat_edit`'s inner replay loop: from position `pos`, while
`cursor.isBeforeOrEqual(endCursor)`, `await cursor.replay(_)` then
`cursor.next()`.  Replays the entries at positions `pos .. endPos`
inclusive, in order. -/
def replaySpan {α : Type} (log : List (Entry α)) (pos endPos : Nat) :
    List (ReplayEvent α) :=
  if h : pos ≤ endPos then
    (match log[pos]? with
     | some e => [entryEvent e]
     | none => []) ++ replaySpan log (pos + 1) endPos
  else []
termination_by endPos + 1 - pos
decreasing_by omega

/-- The result of a `repeat_edit` invocation: whether the context's
do-not-record flag was set (`_.doNotRecord()`), the replay trace, and the
error, if any. -/
structure RepeatEditResult (α : Type) where
  doNotRecord : Bool
  trace : List (ReplayEvent α)
  error : Option DanceError
deriving DecidableEq, Repr

/-- `repeat_edit` (history.ts:103-137): set the do-not-record flag, locate
the edit span, then replay the whole span `repetitions` times. -/
def repeat_edit {α : Type} (log : List (Entry α)) (repetitions : Nat)
    (outcome : Nat → Option DanceError) : RepeatEditResult α :=
  -- _.doNotRecord() runs first, before any traversal
  match repeatEditSearch log with
  | none =>
    { doNotRecord := true
      trace := []
      error := some (DanceError.error "cannot find switch to normal or insert mode") }
  | some (startPos, endPos) =>
    let r := repeatLoop outcome (replaySpan log startPos endPos) repetitions
    { doNotRecord := true, trace := r.1, error := r.2 }

/-! ## Recordings

`ActiveRecording`, `Recording` and the recorder live in `recorder.ts`,
outside the embedded tree; they are modelled from the spec: an active
recording is the sub-log of the entries appended during the session,
`complete()` seals it into an immutable `Recording`, and `Recording.replay`
re-executes the recorded entries in order. -/

/-- Modelled from the spec: an open macro-recording session owning a
sub-log. -/
structure ActiveRecording (α : Type) where
  entries : List (Entry α)
deriving DecidableEq, Repr

/-- Modelled from the spec: an immutable, completed recording. -/
structure Recording (α : Type) where
  entries : List (Entry α)
deriving DecidableEq, Repr

/-- Modelled from the spec: sealing an active recording's sub-log into an
immutable `Recording`. -/
def ActiveRecording.complete {α : Type} (r : ActiveRecording α) : Recording α :=
  { entries := r.entries }

/-- Modelled from the spec: one replay of a completed recording re-executes
its entries in order. -/
def Recording.replay {α : Type} (r : Recording α) : List (ReplayEvent α) :=
  r.entries.map entryEvent

/-- The register/recording state read and written by the recording commands:
the module-level `recordingPerRegister` map (active recordings) and the
recording slot of each register (`getRecording` / `setRecording`).
Registers are identified by their `name`. -/
structure RecState (α : Type) where
  recordingPerRegister : String → Option (ActiveRecording α)
  stored : String → Option (Recording α)

/-- `recording_play` (history.ts:145-162): read the register's recording,
fail with an argument error if it holds none, else replay it `repetitions`
times. -/
def recording_play {α : Type} (st : RecState α) (repetitions : Nat) (register : String)
    (outcome : Nat → Option DanceError) : List (ReplayEvent α) × Option DanceError :=
  match st.stored register with
  | none =>
    ([], some (DanceError.argumentError "recording"
      ("register \"" ++ register ++ "\" does not hold a recording")))
  | some recording => repeatLoop outcome recording.replay repetitions

/-- `recording_start` (history.ts:172-185): fail if a recording is already
active on the register, else begin a fresh session (`recorder.startRecording`,
modelled from the spec as an empty sub-log) and associate it with the
register. -/
def recording_start {α : Type} (st : RecState α) (register : String) :
    Except DanceError (RecState α) :=
  if (st.recordingPerRegister register).isSome then
    Except.error (DanceError.argumentError "register" "a recording is already active")
  else
    Except.ok
      { st with
        recordingPerRegister := fun r =>
          if r = register then some { entries := [] } else st.recordingPerRegister r }

/-- `recording_stop` (history.ts:193-207): fail if no recording is active on
the register; else drop the association and store the sealed recording on
the register. -/
def recording_stop {α : Type} (st : RecState α) (register : String) :
    Except DanceError (RecState α) :=
  match st.recordingPerRegister register with
  | none =>
    Except.error (DanceError.argumentError "register" "no recording is active in the given register")
  | some recording =>
    Except.ok
      { recordingPerRegister := fun r =>
          if r = register then none else st.recordingPerRegister r
        stored := fun r =>
          if r = register then some recording.complete else st.stored r }

/-! ## Cancellation

Modelled from the spec (§5): the cancellation token lives on the context
collaborator, outside the embedded tree; replay loops observe it between
whole-entry replays, never mid-entry.  `cancelRequested i` says whether
cancellation has been requested at the boundary before iteration `i`. -/

/-- Modelled from the spec: the repetition loop with the cancellation signal
checked between iterations.  A requested cancellation aborts the remaining
iterations; events already produced stay in the trace. -/
def repeatLoopCancelFrom {α : Type} (cancelRequested : Nat → Bool)
    (outcome : Nat → Option DanceError) (body : List (ReplayEvent α)) :
    Nat → Nat → List (ReplayEvent α) × Option DanceError
  | _, 0 => ([], none)
  | i, k + 1 =>
    if cancelRequested i then ([], some DanceError.cancelled)
    else
      match outcome i with
      | some e => ([], some e)
      | none =>
        let rest := repeatLoopCancelFrom cancelRequested outcome body (i + 1) k
        (body ++ rest.1, rest.2)

/-- Modelled from the spec: a whole replay repetition loop under
cancellation, `repetitions` iterations from index 0. -/
def repeatLoopCancel {α : Type} (cancelRequested : Nat → Bool)
    (outcome : Nat → Option DanceError) (body : List (ReplayEvent α))
    (repetitions : Nat) : List (ReplayEvent α) × Option DanceError :=
  repeatLoopCancelFrom cancelRequested outcome body 0 repetitions

/-! ## Specification-side predicates and concrete sample data -/

/-- The eligibility predicate of the claims about `repeat`: the entry is an
`ExecuteCommand` whose descriptor has `shouldBeReplayed` true and whose
identifier matches the filter. -/
def eligible {α : Type} (filter : RegExp) : Entry α → Bool
  | Entry.executeCommand d _ => d.shouldBeReplayed && filter.test d.identifier
  | Entry.changeTextEditorMode _ => false

/-- The descriptor/argument payload of an `ExecuteCommand` entry. -/
def entryPayload {α : Type} : Entry α → Option (CommandDescriptor × α)
  | Entry.executeCommand d a => some (d, a)
  | Entry.changeTextEditorMode _ => none

/-- A mode-change entry into insert mode, used as concrete sample data. -/
def insertEntry : Entry Nat :=
  Entry.changeTextEditorMode { name := "insert" }

/-- A mode-change entry into normal mode, used as concrete sample data. -/
def normalEntry : Entry Nat :=
  Entry.changeTextEditorMode { name := "normal" }

/-- A sample replayable command descriptor. -/
def seekDescriptor : CommandDescriptor :=
  { identifier := "dance.seek", shouldBeReplayed := true }

/-- A sample command-execution entry with captured argument `n`. -/
def execEntry (n : Nat) : Entry Nat :=
  Entry.executeCommand seekDescriptor n

/-- A sample filter matching every identifier. -/
def anyFilter : RegExp :=
  { source := ".+", flags := "u", test := fun _ => true }

/-- A sample filter matching no identifier. -/
def noMatchFilter : RegExp :=
  { source := "dance\\.objects", flags := "u", test := fun _ => false }

/-- The outcome oracle on which every awaited replay step succeeds. -/
def okOutcome : Nat → Option DanceError :=
  fun _ => none

/-- An outcome oracle on which the replay step of iteration `i` fails with
`e` and every other iteration succeeds. -/
def failAt (i : Nat) (e : DanceError) : Nat → Option DanceError :=
  fun j => if j = i then some e else none

/-- A sample log ending in an insert-mode edit session: switch to insert,
one edit command, switch back to normal. -/
def sampleEditLog : List (Entry Nat) :=
  [insertEntry, execEntry 1, normalEntry]

/-- A sample register/recording state in which register "a" has an active
recording session and also already holds an older completed recording. -/
def sampleActiveState : RecState Nat :=
  { recordingPerRegister := fun r => if r = "a" then some { entries := [execEntry 7] } else none
    stored := fun r => if r = "a" then some { entries := [execEntry 5, insertEntry] } else none }

/-- A sample log containing no mode change at all. -/
def noSpanLog : List (Entry Nat) :=
  [execEntry 1]

/-- A sample error thrown by an underlying re-executed command. -/
def replayError : DanceError :=
  DanceError.error "underlying command failed"

/-- A sample cancellation signal that becomes (and stays) requested at the
boundary before iteration `i`. -/
def cancelAt (i : Nat) : Nat → Bool :=
  fun j => decide (i ≤ j)

/-- A sample register/recording state: register "a" holds a completed
recording of one command entry, register "b" holds nothing, and no recording
is active anywhere. -/
def sampleRecState : RecState Nat :=
  { recordingPerRegister := fun _ => none
    stored := fun r => if r = "a" then some { entries := [execEntry 5, insertEntry] } else none }

end Dance

/-! # Lemmas -/

namespace Dance

theorem repeatMatchAt_eq {α : Type} (log : List (Entry α)) (filter : RegExp) (pos : Nat) :
    repeatMatchAt log filter pos =
      log[pos]?.bind fun e => if eligible filter e then entryPayload e else none := by
  unfold repeatMatchAt
  cases hE : log[pos]? with
  | none => rfl
  | some e =>
    cases e with
    | executeCommand d a => simp [eligible, entryPayload]
    | changeTextEditorMode m => simp [eligible]

theorem repeatSearchFrom_eq_find {α : Type} (log : List (Entry α)) (filter : RegExp) :
    ∀ pos, repeatSearchFrom log filter pos =
      ((log.take (pos + 1)).reverse.find? (eligible filter)).bind entryPayload := by
  intro pos
  induction pos with
  | zero =>
    cases log with
    | nil => simp [repeatSearchFrom, repeatMatchAt]
    | cons e rest =>
      simp only [repeatSearchFrom, repeatMatchAt_eq, List.take_succ, List.take_zero,
        List.nil_append, List.getElem?_cons_zero, Option.toList_some, List.reverse_cons,
        List.reverse_nil, List.nil_append, Option.some_bind]
      by_cases helig : eligible filter e <;> simp [helig]
  | succ pos ih =>
    simp only [repeatSearchFrom, repeatMatchAt_eq]
    rw [List.take_succ (n := pos + 1)]
    cases hE : log[pos + 1]? with
    | none => simpa [hE] using ih
    | some e =>
      by_cases helig : eligible filter e
      · cases e with
        | executeCommand d a => simp [hE, helig, entryPayload]
        | changeTextEditorMode m => simp [eligible] at helig
      · simpa [hE, helig] using ih

theorem repeatSearch_eq_find {α : Type} (log : List (Entry α)) (filter : RegExp) :
    repeatSearch log filter = (log.reverse.find? (eligible filter)).bind entryPayload := by
  rw [repeatSearch, repeatSearchFrom_eq_find,
    List.take_of_length_le (by omega : log.length ≤ log.length + 1)]

theorem repeatLoopFrom_ok {α : Type} (outcome : Nat → Option DanceError)
    (body : List (ReplayEvent α)) :
    ∀ k i, (∀ j, j < k → outcome (i + j) = none) →
      repeatLoopFrom outcome body i k = ((List.replicate k body).flatten, none) := by
  intro k
  induction k with
  | zero => intro i _; rfl
  | succ k ih =>
    intro i h
    have h0 : outcome i = none := by simpa using h 0 (Nat.succ_pos k)
    have hrest := ih (i + 1) (fun j hj => by
      have := h (j + 1) (by omega)
      simpa [Nat.add_assoc, Nat.add_comm 1 j] using this)
    simp [repeatLoopFrom, h0, hrest, List.replicate_succ]

theorem repeatLoopFrom_fail {α : Type} (outcome : Nat → Option DanceError)
    (body : List (ReplayEvent α)) (e : DanceError) :
    ∀ f i k, f < k → outcome (i + f) = some e → (∀ j, j < f → outcome (i + j) = none) →
      repeatLoopFrom outcome body i k = ((List.replicate f body).flatten, some e) := by
  intro f
  induction f with
  | zero =>
    intro i k hk hf _
    obtain ⟨k', rfl⟩ : ∃ k', k = k' + 1 := ⟨k - 1, by omega⟩
    simp only [Nat.add_zero] at hf
    simp [repeatLoopFrom, hf]
  | succ f ih =>
    intro i k hk hf h
    obtain ⟨k', rfl⟩ : ∃ k', k = k' + 1 := ⟨k - 1, by omega⟩
    have h0 : outcome i = none := by simpa using h 0 (Nat.succ_pos f)
    have hrest := ih (i + 1) k' (by omega)
      (by simpa [Nat.add_assoc, Nat.add_comm 1 f] using hf)
      (fun j hj => by
        have := h (j + 1) (by omega)
        simpa [Nat.add_assoc, Nat.add_comm 1 j] using this)
    simp [repeatLoopFrom, h0, hrest, List.replicate_succ]

theorem repeatLoop_ok {α : Type} (outcome : Nat → Option DanceError)
    (body : List (ReplayEvent α)) (k : Nat) (h : ∀ j, j < k → outcome j = none) :
    repeatLoop outcome body k = ((List.replicate k body).flatten, none) :=
  repeatLoopFrom_ok outcome body k 0 (fun j hj => by simpa using h j hj)

theorem repeatLoop_fail {α : Type} (outcome : Nat → Option DanceError)
    (body : List (ReplayEvent α)) (e : DanceError) (f k : Nat) (hk : f < k)
    (hf : outcome f = some e) (h : ∀ j, j < f → outcome j = none) :
    repeatLoop outcome body k = ((List.replicate f body).flatten, some e) :=
  repeatLoopFrom_fail outcome body e f 0 k hk (by simpa using hf)
    (fun j hj => by simpa using h j hj)

theorem flatten_replicate_singleton {α : Type} (x : ReplayEvent α) :
    ∀ n, (List.replicate n [x]).flatten = List.replicate n x := by
  intro n
  induction n with
  | zero => rfl
  | succ n ih => simp [List.replicate_succ, ih]

theorem lt_length_of_getElem?_some {β : Type} {l : List β} {n : Nat} {x : β}
    (h : l[n]? = some x) : n < l.length := by
  rcases Nat.lt_or_ge n l.length with hlt | hge
  · exact hlt
  · rw [List.getElem?_eq_none hge] at h
    cases h

theorem length_le_of_getElem?_none {β : Type} {l : List β} {n : Nat}
    (h : l[n]? = none) : l.length ≤ n := by
  rcases Nat.lt_or_ge n l.length with hlt | hge
  · rw [List.getElem?_eq_getElem hlt] at h
    cases h
  · exact hge

theorem replaySpan_eq {α : Type} (log : List (Entry α)) :
    ∀ n pos endPos, endPos + 1 - pos ≤ n →
      replaySpan log pos endPos =
        ((log.drop pos).take (endPos + 1 - pos)).map entryEvent := by
  intro n
  induction n with
  | zero =>
    intro pos endPos hn
    have hlt : ¬pos ≤ endPos := by omega
    rw [replaySpan]
    simp [hlt, show endPos + 1 - pos = 0 by omega]
  | succ n ih =>
    intro pos endPos hn
    rw [replaySpan]
    by_cases hle : pos ≤ endPos
    · simp only [dif_pos hle]
      have hrest := ih (pos + 1) endPos (by omega)
      cases hE : log[pos]? with
      | none =>
        have hlen : log.length ≤ pos := length_le_of_getElem?_none hE
        have hdrop : log.drop pos = [] := List.drop_eq_nil_of_le hlen
        have hdrop' : log.drop (pos + 1) = [] := List.drop_eq_nil_of_le (by omega)
        simp [hrest, hdrop, hdrop']
      | some e =>
        have hlt : pos < log.length := lt_length_of_getElem?_some hE
        have hdrop : log.drop pos = log[pos] :: log.drop (pos + 1) :=
          List.drop_eq_getElem_cons hlt
        have he : log[pos] = e := by
          have := List.getElem?_eq_getElem hlt
          rw [hE] at this
          exact (Option.some_inj.mp this.symm)
        rw [hrest, hdrop, he, show endPos + 1 - pos = (endPos + 1 - (pos + 1)) + 1 by omega]
        simp
    · simp [dif_neg hle, show endPos + 1 - pos = 0 by omega]

theorem replaySpan_slice {α : Type} (log : List (Entry α)) (pos endPos : Nat) :
    replaySpan log pos endPos =
      ((log.drop pos).take (endPos + 1 - pos)).map entryEvent :=
  replaySpan_eq log (endPos + 1 - pos) pos endPos (Nat.le_refl _)

/-- The invariant carried by `repeat_edit`'s backward scan: a captured end
position is at least 1, lies strictly above the cursor, and sits immediately
before a mode change to normal. -/
def editScanInv {α : Type} (log : List (Entry α)) (pos : Nat) (endPos : Option Nat) : Prop :=
  ∀ ep, endPos = some ep → 1 ≤ ep ∧ pos + 1 ≤ ep ∧
    ∃ m, log[ep + 1]? = some (Entry.changeTextEditorMode m) ∧ m.name = "normal"

theorem repeatEditSearchFrom_located {α : Type} (log : List (Entry α)) :
    ∀ pos endPos s e, editScanInv log pos endPos →
      repeatEditSearchFrom log pos endPos = some (s, e) →
      1 ≤ s ∧ s ≤ e ∧
      (∃ m, log[e + 1]? = some (Entry.changeTextEditorMode m) ∧ m.name = "normal") ∧
      (∃ m, log[s - 1]? = some (Entry.changeTextEditorMode m) ∧ m.name = "insert") := by
  intro pos
  induction pos using Nat.strong_induction_on with
  | _ pos ih =>
    intro endPos s e hinv h
    rw [repeatEditSearchFrom.eq_def] at h
    cases hE : log[pos]? with
    | none =>
      simp only [hE] at h
      split at h
      · exact absurd h (by simp)
      · exact ih (pos - 1) (by omega) endPos s e
          (fun ep hep => by
            obtain ⟨h1, h2, h3⟩ := hinv ep hep
            exact ⟨h1, by omega, h3⟩) h
    | some entry =>
      cases entry with
      | executeCommand d a =>
        simp only [hE] at h
        split at h
        · exact absurd h (by simp)
        · exact ih (pos - 1) (by omega) endPos s e
            (fun ep hep => by
              obtain ⟨h1, h2, h3⟩ := hinv ep hep
              exact ⟨h1, by omega, h3⟩) h
      | changeTextEditorMode m =>
        simp only [hE] at h
        by_cases hnorm : m.name = "normal"
        · rw [if_pos hnorm] at h
          split at h
          · exact absurd h (by simp)
          · rename_i hne
            have hpos2 : 2 ≤ pos := by omega
            exact ih (pos - 1 - 1) (by omega) (some (pos - 1)) s e
              (fun ep hep => by
                cases hep
                refine ⟨by omega, by omega, m, ?_, hnorm⟩
                rw [show pos - 1 + 1 = pos by omega]
                exact hE) h
        · rw [if_neg hnorm] at h
          by_cases hins : m.name = "insert" ∧ endPos.isSome
          · rw [dif_pos hins] at h
            obtain ⟨ep, hep⟩ := Option.isSome_iff_exists.mp hins.2
            subst hep
            obtain ⟨h1, h2, h3⟩ := hinv ep rfl
            have hlt : pos < log.length := lt_length_of_getElem?_some hE
            rw [if_pos hlt] at h
            simp only [Option.get_some] at h
            obtain ⟨rfl, rfl⟩ : pos + 1 = s ∧ ep = e := by
              have := Option.some_inj.mp h
              exact ⟨congrArg Prod.fst this, congrArg Prod.snd this⟩
            refine ⟨by omega, by omega, h3, m, ?_, hins.1⟩
            simpa using hE
          · rw [dif_neg hins] at h
            split at h
            · exact absurd h (by simp)
            · exact ih (pos - 1) (by omega) endPos s e
                (fun ep hep => by
                  obtain ⟨h1, h2, h3⟩ := hinv ep hep
                  exact ⟨h1, by omega, h3⟩) h

theorem repeatEditSearch_located {α : Type} (log : List (Entry α)) (s e : Nat)
    (h : repeatEditSearch log = some (s, e)) :
    1 ≤ s ∧ s ≤ e ∧
    (∃ m, log[e + 1]? = some (Entry.changeTextEditorMode m) ∧ m.name = "normal") ∧
    (∃ m, log[s - 1]? = some (Entry.changeTextEditorMode m) ∧ m.name = "insert") :=
  repeatEditSearchFrom_located log log.length none s e (fun ep hep => by cases hep) h

theorem repeatLoopCancelFrom_cancel {α : Type} (cancelRequested : Nat → Bool)
    (outcome : Nat → Option DanceError) (body : List (ReplayEvent α)) :
    ∀ f i k, f < k → cancelRequested (i + f) = true →
      (∀ j, j < f → cancelRequested (i + j) = false) →
      (∀ j, j < f → outcome (i + j) = none) →
      repeatLoopCancelFrom cancelRequested outcome body i k =
        ((List.replicate f body).flatten, some DanceError.cancelled) := by
  intro f
  induction f with
  | zero =>
    intro i k hk hc _ _
    obtain ⟨k', rfl⟩ : ∃ k', k = k' + 1 := ⟨k - 1, by omega⟩
    simp only [Nat.add_zero] at hc
    simp [repeatLoopCancelFrom, hc]
  | succ f ih =>
    intro i k hk hc hcok hok
    obtain ⟨k', rfl⟩ : ∃ k', k = k' + 1 := ⟨k - 1, by omega⟩
    have hc0 : cancelRequested i = false := by simpa using hcok 0 (Nat.succ_pos f)
    have ho0 : outcome i = none := by simpa using hok 0 (Nat.succ_pos f)
    have hrest := ih (i + 1) k' (by omega)
      (by simpa [Nat.add_assoc, Nat.add_comm 1 f] using hc)
      (fun j hj => by
        have := hcok (j + 1) (by omega)
        simpa [Nat.add_assoc, Nat.add_comm 1 j] using this)
      (fun j hj => by
        have := hok (j + 1) (by omega)
        simpa [Nat.add_assoc, Nat.add_comm 1 j] using this)
    simp [repeatLoopCancelFrom, hc0, ho0, hrest, List.replicate_succ]

theorem sampleEditLog_search : repeatEditSearch sampleEditLog = some (1, 1) := by
  have h0 : repeatEditSearchFrom sampleEditLog 0 (some 1) = some (1, 1) := by
    rw [repeatEditSearchFrom.eq_def]
    simp [sampleEditLog, insertEntry, execEntry, normalEntry]
  have h2 : repeatEditSearchFrom sampleEditLog 2 none = some (1, 1) := by
    rw [repeatEditSearchFrom.eq_def]
    simp only [sampleEditLog, insertEntry, execEntry, normalEntry, seekDescriptor]
    norm_num
    exact h0
  have h3 : repeatEditSearchFrom sampleEditLog 3 none = some (1, 1) := by
    rw [repeatEditSearchFrom.eq_def]
    norm_num [sampleEditLog]
    exact h2
  simpa [repeatEditSearch, sampleEditLog] using h3

theorem noSpanLog_search : repeatEditSearch noSpanLog = none := by
  have h0 : repeatEditSearchFrom noSpanLog 0 none = none := by
    rw [repeatEditSearchFrom.eq_def]
    simp [noSpanLog, execEntry, seekDescriptor]
  have h1 : repeatEditSearchFrom noSpanLog 1 none = none := by
    rw [repeatEditSearchFrom.eq_def]
    norm_num [noSpanLog]
    exact h0
  simpa [repeatEditSearch, noSpanLog] using h1

theorem repeat_found {α : Type} (log : List (Entry α)) (filter : RegExp)
    (repetitions : Nat) (outcome : Nat → Option DanceError) (d : CommandDescriptor) (a : α)
    (h : repeatSearch log filter = some (d, a)) :
    «repeat» log repetitions filter outcome =
      repeatLoop outcome [ReplayEvent.command d a] repetitions := by
  rw [«repeat», h]

theorem repeat_edit_found {α : Type} (log : List (Entry α)) (s e : Nat)
    (repetitions : Nat) (outcome : Nat → Option DanceError)
    (h : repeatEditSearch log = some (s, e)) :
    repeat_edit log repetitions outcome =
      { doNotRecord := true,
        trace := (repeatLoop outcome (replaySpan log s e) repetitions).1,
        error := (repeatLoop outcome (replaySpan log s e) repetitions).2 } := by
  rw [repeat_edit, h]

end Dance

/-! # Claims -/

namespace Dance

/-- Claim C1: for every log and every filter, `repeat` selects the most
recent entry that is an `ExecuteCommand` whose descriptor has
`shouldBeReplayed` true and whose identifier matches the filter, then
invokes that descriptor's replay exactly `repetitions` times with the
identical captured argument each time; if no entry satisfies all three
conditions, `repeat` fails with a search-exhausted error naming the filter
and performs no replay. -/
theorem repeat_selects_most_recent_matching {α : Type} (log : List (Entry α))
    (repetitions : Nat) (filter : RegExp) (outcome : Nat → Option DanceError)
    (hok : ∀ i, i < repetitions → outcome i = none) :
    (∀ d a, log.reverse.find? (eligible filter) = some (Entry.executeCommand d a) →
      «repeat» log repetitions filter outcome =
        (List.replicate repetitions (ReplayEvent.command d a), none))
    ∧ (log.reverse.find? (eligible filter) = none →
      «repeat» log repetitions filter outcome =
        ([], some (DanceError.error ("no previous command matching " ++ filter.toString)))) := by
  constructor
  · intro d a hfind
    rw [«repeat», repeatSearch_eq_find, hfind]
    simp only [entryPayload, Option.some_bind]
    rw [repeatLoop_ok outcome _ repetitions hok, flatten_replicate_singleton]
  · intro hfind
    rw [«repeat», repeatSearch_eq_find, hfind]
    rfl

/-- Witness for C1 on a concrete log: the most recent eligible command
(`execEntry 2`) is replayed three times with its captured argument; a filter
matching nothing yields the search-exhausted error and no replay. -/
theorem repeat_selects_most_recent_matching_witness :
    «repeat» [execEntry 1, execEntry 2] 3 anyFilter okOutcome =
      (List.replicate 3 (ReplayEvent.command seekDescriptor 2), none) ∧
    «repeat» [execEntry 1, execEntry 2] 3 noMatchFilter okOutcome =
      ([], some (DanceError.error
        ("no previous command matching " ++ noMatchFilter.toString))) :=
  ⟨(repeat_selects_most_recent_matching [execEntry 1, execEntry 2] 3 anyFilter okOutcome
      (fun _ _ => rfl)).1 seekDescriptor 2 rfl,
   (repeat_selects_most_recent_matching [execEntry 1, execEntry 2] 3 noMatchFilter okOutcome
      (fun _ _ => rfl)).2 rfl⟩

/-- Claim C4: `recording_play` fails with an argument error, performing no
replay, whenever the given register holds no recording; otherwise it
replays the register's entire completed recording exactly `repetitions`
times in sequence. -/
theorem recording_play_requires_recording {α : Type} (st : RecState α) (register : String)
    (repetitions : Nat) (outcome : Nat → Option DanceError)
    (hok : ∀ i, i < repetitions → outcome i = none) :
    (st.stored register = none →
      recording_play st repetitions register outcome =
        ([], some (DanceError.argumentError "recording"
          ("register \"" ++ register ++ "\" does not hold a recording"))))
    ∧ (∀ r, st.stored register = some r →
      recording_play st repetitions register outcome =
        ((List.replicate repetitions r.replay).flatten, none)) := by
  constructor
  · intro hnone
    rw [recording_play, hnone]
  · intro r hsome
    rw [recording_play, hsome]
    exact repeatLoop_ok outcome r.replay repetitions hok

/-- Witness for C4: register "b" of the sample state holds no recording and
playing it fails with the argument error; register "a" holds a recording of
two entries, and playing it twice replays the whole recording twice. -/
theorem recording_play_requires_recording_witness :
    recording_play sampleRecState 2 "b" okOutcome =
      ([], some (DanceError.argumentError "recording"
        ("register \"" ++ "b" ++ "\" does not hold a recording"))) ∧
    recording_play sampleRecState 2 "a" okOutcome =
      ((List.replicate 2 (Recording.replay { entries := [execEntry 5, insertEntry] })).flatten,
        none) :=
  ⟨(recording_play_requires_recording sampleRecState "b" 2 okOutcome (fun _ _ => rfl)).1 rfl,
   (recording_play_requires_recording sampleRecState "a" 2 okOutcome (fun _ _ => rfl)).2
     { entries := [execEntry 5, insertEntry] } rfl⟩

/-- Claim C5: for every register, the recording status follows the state
machine Idle → Recording → Idle: `recording_start` succeeds exactly when no
recording is active on the register (so a second `recording_start` without
an intervening stop fails with a precondition error), and `recording_stop`
succeeds exactly when a recording is active (failing otherwise); at most one
recording is ever active per register. -/
theorem recording_state_machine {α : Type} (st : RecState α) (register : String) :
    (st.recordingPerRegister register = none →
      ∃ st', recording_start st register = Except.ok st' ∧
        (st'.recordingPerRegister register).isSome = true ∧
        recording_start st' register =
          Except.error (DanceError.argumentError "register" "a recording is already active"))
    ∧ ((st.recordingPerRegister register).isSome = true →
      recording_start st register =
        Except.error (DanceError.argumentError "register" "a recording is already active"))
    ∧ (st.recordingPerRegister register = none →
      recording_stop st register =
        Except.error (DanceError.argumentError "register" "no recording is active in the given register"))
    ∧ (∀ rec, st.recordingPerRegister register = some rec →
      ∃ st', recording_stop st register = Except.ok st' ∧
        st'.recordingPerRegister register = none) := by
  refine ⟨?_, ?_, ?_, ?_⟩
  · intro hnone
    refine ⟨{ st with recordingPerRegister := fun r =>
        if r = register then some { entries := [] } else st.recordingPerRegister r }, ?_, ?_, ?_⟩
    · simp [recording_start, hnone]
    · simp
    · simp [recording_start]
  · intro hsome
    rw [recording_start, if_pos hsome]
  · intro hnone
    simp [recording_stop, hnone]
  · intro rec hsome
    refine ⟨⟨fun r => if r = register then none else st.recordingPerRegister r,
        fun r => if r = register then some rec.complete else st.stored r⟩, ?_, ?_⟩
    · simp [recording_stop, hsome]
    · simp

/-- Witness for C5: on the sample state (register "a" idle), starting a
recording succeeds and a second start on the same register fails; stopping
with no active recording fails. -/
theorem recording_state_machine_witness :
    (∃ st', recording_start sampleRecState "a" = Except.ok st' ∧
      (st'.recordingPerRegister "a").isSome = true ∧
      recording_start st' "a" =
        Except.error (DanceError.argumentError "register" "a recording is already active")) ∧
    recording_stop sampleRecState "a" =
      Except.error (DanceError.argumentError "register" "no recording is active in the given register") :=
  ⟨(recording_state_machine sampleRecState "a").1 rfl,
   (recording_state_machine sampleRecState "a").2.2.1 rfl⟩

/-- Claim C6: a successful `recording_stop` removes the active-recording
association for the register, seals the session's sub-log into an immutable
`Recording`, and stores it on the register, overwriting any recording
previously held there (the state `st` is arbitrary, so in particular the
register may already hold a recording); other registers are untouched and
afterwards the register is idle again. -/
theorem recording_stop_seals_and_stores {α : Type} (st : RecState α) (register : String)
    (rec : ActiveRecording α) (h : st.recordingPerRegister register = some rec) :
    ∃ st', recording_stop st register = Except.ok st' ∧
      st'.recordingPerRegister register = none ∧
      st'.stored register = some rec.complete ∧
      (∀ r, r ≠ register →
        st'.stored r = st.stored r ∧
        st'.recordingPerRegister r = st.recordingPerRegister r) := by
  refine ⟨⟨fun r => if r = register then none else st.recordingPerRegister r,
      fun r => if r = register then some rec.complete else st.stored r⟩, ?_, ?_, ?_, ?_⟩
  · simp [recording_stop, h]
  · simp
  · simp
  · intro r hr
    simp [hr]

/-- Witness for C6: stopping the active recording of register "a" (which
already holds an older recording) stores the sealed sub-log, overwriting
the old recording, and leaves the register idle. -/
theorem recording_stop_seals_and_stores_witness :
    ∃ st', recording_stop sampleActiveState "a" = Except.ok st' ∧
      st'.recordingPerRegister "a" = none ∧
      st'.stored "a" = some (ActiveRecording.complete { entries := [execEntry 7] }) ∧
      (∀ r, r ≠ "a" →
        st'.stored r = sampleActiveState.stored r ∧
        st'.recordingPerRegister r = sampleActiveState.recordingPerRegister r) :=
  recording_stop_seals_and_stores sampleActiveState "a" { entries := [execEntry 7] } rfl

/-- Claim C10: `repeat_edit` sets the context's do-not-record flag on every
invocation — before any traversal or replay, including invocations with
`repetitions = 0` and invocations whose span search fails — so a
`repeat_edit` invocation never appends an entry for itself to the history
log. -/
theorem repeat_edit_always_sets_do_not_record {α : Type} (log : List (Entry α))
    (repetitions : Nat) (outcome : Nat → Option DanceError) :
    (repeat_edit log repetitions outcome).doNotRecord = true := by
  rcases h : repeatEditSearch log with _ | ⟨s, e⟩ <;> simp [repeat_edit, h]

/-- Claim C2 counterexample: on the log `[to-insert, command, to-normal]`
the edit-span search captures span end position 1 — the position
immediately BEFORE the change-to-normal entry (which sits at position 2,
the only change to normal in the log) — not the position immediately after
it (which would be 3), refuting the claim's description of the captured
span end. -/
theorem repeat_edit_span_end_counterexample :
    repeatEditSearch sampleEditLog = some (1, 1) ∧
    sampleEditLog[2]? = some (Entry.changeTextEditorMode { name := "normal" }) ∧
    (∀ p, sampleEditLog[p]? = some (Entry.changeTextEditorMode { name := "normal" }) →
      p = 2) ∧
    (1 : Nat) ≠ 2 + 1 := by
  refine ⟨sampleEditLog_search, rfl, ?_, by decide⟩
  intro p hp
  match p with
  | 0 => exact absurd hp (by decide)
  | 1 => exact absurd hp (by decide)
  | 2 => rfl
  | p + 3 => simp [sampleEditLog] at hp

/-- Claim C2 (amended): `repeat_edit` scans backward from the log end; on
finding a ChangeMode entry to "normal" it captures the cursor immediately
BEFORE that entry (the cursor is moved one position back before cloning) as
the span end, then continues scanning backward until a ChangeMode entry
into "insert" is found with an end already captured, and captures the
position immediately after that entry as the span start — so a located span
satisfies `1 ≤ start ≤ end`, the entry just after the span end is a change
to "normal", and the entry just before the span start is a change to
"insert"; if the backward scan reaches the log start without completing
such a bracketing pair, `repeat_edit` fails with an error. -/
theorem repeat_edit_span_located_spec {α : Type} (log : List (Entry α))
    (repetitions : Nat) (outcome : Nat → Option DanceError) :
    (∀ s e, repeatEditSearch log = some (s, e) →
      1 ≤ s ∧ s ≤ e ∧
      (∃ m, log[e + 1]? = some (Entry.changeTextEditorMode m) ∧ m.name = "normal") ∧
      (∃ m, log[s - 1]? = some (Entry.changeTextEditorMode m) ∧ m.name = "insert"))
    ∧ (repeatEditSearch log = none →
      repeat_edit log repetitions outcome =
        { doNotRecord := true, trace := [],
          error := some (DanceError.error "cannot find switch to normal or insert mode") }) := by
  constructor
  · intro s e h
    exact repeatEditSearch_located log s e h
  · intro h
    simp [repeat_edit, h]

/-- Witness for amended C2: on the sample edit log the located span is
`(1, 1)` with the change to "normal" immediately after the span end and the
change to "insert" immediately before the span start; on a log with no mode
change at all, `repeat_edit` fails with the search-exhausted error. -/
theorem repeat_edit_span_located_spec_witness :
    (1 ≤ 1 ∧ 1 ≤ 1 ∧
      (∃ m, sampleEditLog[2]? = some (Entry.changeTextEditorMode m) ∧ m.name = "normal") ∧
      (∃ m, sampleEditLog[0]? = some (Entry.changeTextEditorMode m) ∧ m.name = "insert")) ∧
    repeat_edit noSpanLog 2 okOutcome =
      { doNotRecord := true, trace := [],
        error := some (DanceError.error "cannot find switch to normal or insert mode") } :=
  ⟨(repeat_edit_span_located_spec sampleEditLog 2 okOutcome).1 1 1 sampleEditLog_search,
   (repeat_edit_span_located_spec noSpanLog 2 okOutcome).2 noSpanLog_search⟩

/-- Claim C3: once `repeat_edit` has located a span, for each of
`repetitions` iterations it walks from the span start to the span end
inclusive, replaying every entry of the span in original order — the full
entry sequence of the span is replayed, in order, `repetitions` times, not
just its last entry. -/
theorem repeat_edit_replays_whole_span {α : Type} (log : List (Entry α)) (s e : Nat)
    (repetitions : Nat) (outcome : Nat → Option DanceError)
    (hok : ∀ i, i < repetitions → outcome i = none)
    (h : repeatEditSearch log = some (s, e)) :
    repeat_edit log repetitions outcome =
      { doNotRecord := true,
        trace := (List.replicate repetitions
          (((log.drop s).take (e + 1 - s)).map entryEvent)).flatten,
        error := none } := by
  rw [repeat_edit_found log s e repetitions outcome h,
    repeatLoop_ok outcome (replaySpan log s e) repetitions hok, replaySpan_slice]

/-- Witness for C3: on the sample edit log (span = the single command
between the two mode changes), two repetitions replay the span's entry
sequence twice, in order. -/
theorem repeat_edit_replays_whole_span_witness :
    repeat_edit sampleEditLog 2 okOutcome =
      { doNotRecord := true,
        trace := [ReplayEvent.command seekDescriptor 1, ReplayEvent.command seekDescriptor 1],
        error := none } := by
  have := repeat_edit_replays_whole_span sampleEditLog 1 1 2 okOutcome (fun _ _ => rfl)
    sampleEditLog_search
  simpa [sampleEditLog, execEntry, insertEntry, normalEntry, entryEvent] using this

/-- Claim C7: for every repetition loop (`repeat`, `repeat_edit`,
`recording_play`), if the underlying re-executed command fails at iteration
`i < repetitions`, the error is propagated to the caller unchanged (not
swallowed) and the remaining iterations `i+1 .. repetitions` are not
performed: the trace holds exactly the `i` earlier iterations. -/
theorem replay_failure_propagates_and_aborts {α : Type} (log : List (Entry α))
    (st : RecState α) (register : String) (filter : RegExp)
    (repetitions i : Nat) (e : DanceError) (outcome : Nat → Option DanceError)
    (hi : i < repetitions) (hfail : outcome i = some e)
    (hok : ∀ j, j < i → outcome j = none) :
    (∀ d a, repeatSearch log filter = some (d, a) →
      «repeat» log repetitions filter outcome =
        (List.replicate i (ReplayEvent.command d a), some e))
    ∧ (∀ s en, repeatEditSearch log = some (s, en) →
      repeat_edit log repetitions outcome =
        { doNotRecord := true,
          trace := (List.replicate i (replaySpan log s en)).flatten,
          error := some e })
    ∧ (∀ r, st.stored register = some r →
      recording_play st repetitions register outcome =
        ((List.replicate i r.replay).flatten, some e)) := by
  refine ⟨?_, ?_, ?_⟩
  · intro d a h
    rw [repeat_found log filter repetitions outcome d a h,
      repeatLoop_fail outcome _ e i repetitions hi hfail hok, flatten_replicate_singleton]
  · intro s en h
    rw [repeat_edit_found log s en repetitions outcome h,
      repeatLoop_fail outcome (replaySpan log s en) e i repetitions hi hfail hok]
  · intro r h
    rw [recording_play, h]
    exact repeatLoop_fail outcome r.replay e i repetitions hi hfail hok

/-- Witness for C7: with an outcome oracle failing at iteration 1 of 3, on
concrete inputs each command performs exactly iteration 0, then surfaces
the underlying error unchanged. -/
theorem replay_failure_propagates_and_aborts_witness :
    «repeat» [execEntry 1, execEntry 2] 3 anyFilter (failAt 1 replayError) =
      ([ReplayEvent.command seekDescriptor 2], some replayError) ∧
    repeat_edit sampleEditLog 3 (failAt 1 replayError) =
      { doNotRecord := true,
        trace := [ReplayEvent.command seekDescriptor 1],
        error := some replayError } ∧
    recording_play sampleRecState 3 "a" (failAt 1 replayError) =
      ([ReplayEvent.command seekDescriptor 5, ReplayEvent.modeChange "insert"],
        some replayError) := by
  have hok : ∀ j, j < 1 → failAt 1 replayError j = none := fun j hj => by
    obtain rfl : j = 0 := Nat.lt_one_iff.mp hj
    rfl
  refine ⟨?_, ?_, ?_⟩
  · have := (replay_failure_propagates_and_aborts [execEntry 1, execEntry 2] sampleRecState
      "a" anyFilter 3 1 replayError (failAt 1 replayError) (by omega) rfl hok).1
      seekDescriptor 2 rfl
    simpa using this
  · have := (replay_failure_propagates_and_aborts sampleEditLog sampleRecState
      "a" anyFilter 3 1 replayError (failAt 1 replayError) (by omega) rfl hok).2.1
      1 1 sampleEditLog_search
    simpa [replaySpan_slice, sampleEditLog, execEntry, insertEntry, normalEntry, entryEvent]
      using this
  · have := (replay_failure_propagates_and_aborts sampleEditLog sampleRecState
      "a" anyFilter 3 1 replayError (failAt 1 replayError) (by omega) rfl hok).2.2
      { entries := [execEntry 5, insertEntry] } rfl
    simpa [Recording.replay, execEntry, insertEntry, entryEvent] using this

/-- Claim C8 (modelled from the spec, §5): every replay repetition loop
checks the cancellation signal between iterations — never mid-entry — and,
if cancellation is requested before iteration `i`, aborts the remaining
iterations; the replay work of the earlier iterations is not rolled back:
the trace still holds the `i` completed iterations. -/
theorem cancellation_checked_between_iterations {α : Type} (body : List (ReplayEvent α))
    (outcome : Nat → Option DanceError) (cancelRequested : Nat → Bool)
    (repetitions i : Nat) (hi : i < repetitions) (hc : cancelRequested i = true)
    (hbefore : ∀ j, j < i → cancelRequested j = false)
    (hok : ∀ j, j < i → outcome j = none) :
    repeatLoopCancel cancelRequested outcome body repetitions =
      ((List.replicate i body).flatten, some DanceError.cancelled) :=
  repeatLoopCancelFrom_cancel cancelRequested outcome body i 0 repetitions hi
    (by simpa using hc) (fun j hj => by simpa using hbefore j hj)
    (fun j hj => by simpa using hok j hj)

/-- Witness for C8: with cancellation requested at the boundary before
iteration 1 of 3, the loop performs exactly iteration 0 (whose replay event
stays in the trace) and aborts with the cancellation signal. -/
theorem cancellation_checked_between_iterations_witness :
    repeatLoopCancel (cancelAt 1) okOutcome [ReplayEvent.command seekDescriptor 2] 3 =
      ([ReplayEvent.command seekDescriptor 2], some DanceError.cancelled) := by
  have := cancellation_checked_between_iterations [ReplayEvent.command seekDescriptor 2]
    okOutcome (cancelAt 1) 3 1 (by omega) rfl
    (fun j hj => by
      obtain rfl : j = 0 := Nat.lt_one_iff.mp hj
      rfl)
    (fun j hj => rfl)
  simpa using this

/-- Claim C9: with `repetitions = 0`, `repeat` and `recording_play` still
perform their search/validation and still raise the corresponding error
(search-exhausted for `repeat` when no entry matches, argument error for
`recording_play` when the register holds no recording), but invoke no
replay at all when the search/validation succeeds. -/
theorem zero_repetitions_validate_without_replay {α : Type} (log : List (Entry α))
    (filter : RegExp) (st : RecState α) (register : String)
    (outcome : Nat → Option DanceError) :
    (log.reverse.find? (eligible filter) = none →
      «repeat» log 0 filter outcome =
        ([], some (DanceError.error ("no previous command matching " ++ filter.toString))))
    ∧ (∀ d a, log.reverse.find? (eligible filter) = some (Entry.executeCommand d a) →
      «repeat» log 0 filter outcome = ([], none))
    ∧ (st.stored register = none →
      recording_play st 0 register outcome =
        ([], some (DanceError.argumentError "recording"
          ("register \"" ++ register ++ "\" does not hold a recording"))))
    ∧ (∀ r, st.stored register = some r →
      recording_play st 0 register outcome = ([], none)) := by
  refine ⟨?_, ?_, ?_, ?_⟩
  · intro h
    rw [«repeat», repeatSearch_eq_find, h]
    rfl
  · intro d a h
    rw [«repeat», repeatSearch_eq_find, h]
    rfl
  · intro h
    simp [recording_play, h]
  · intro r h
    simp [recording_play, h]
    rfl

/-- Witness for C9: at zero repetitions on concrete inputs, the failing
searches/validations still produce their errors, and the successful ones
replay nothing. -/
theorem zero_repetitions_validate_without_replay_witness :
    «repeat» [execEntry 1, execEntry 2] 0 noMatchFilter okOutcome =
      ([], some (DanceError.error
        ("no previous command matching " ++ noMatchFilter.toString))) ∧
    «repeat» [execEntry 1, execEntry 2] 0 anyFilter okOutcome = ([], none) ∧
    recording_play sampleRecState 0 "b" okOutcome =
      ([], some (DanceError.argumentError "recording"
        ("register \"" ++ "b" ++ "\" does not hold a recording"))) ∧
    recording_play sampleRecState 0 "a" okOutcome = ([], none) :=
  ⟨(zero_repetitions_validate_without_replay [execEntry 1, execEntry 2] noMatchFilter
      sampleRecState "b" okOutcome).1 rfl,
   (zero_repetitions_validate_without_replay [execEntry 1, execEntry 2] anyFilter
      sampleRecState "b" okOutcome).2.1 seekDescriptor 2 rfl,
   (zero_repetitions_validate_without_replay [execEntry 1, execEntry 2] anyFilter
      sampleRecState "b" okOutcome).2.2.1 rfl,
   (zero_repetitions_validate_without_replay [execEntry 1, execEntry 2] anyFilter
      sampleRecState "a" okOutcome).2.2.2 { entries := [execEntry 5, insertEntry] } rfl⟩

end Dance
